import Mathlib

/-!
Shallow embedding of the MongoDB-backed key-value store of cometbft-db
(`mongodb.go`, `mongodb_iterator.go`, and the batch file `MongoDBBatch`).

Modelling conventions:
* Go byte slices whose nil-ness is irrelevant (keys: the code only tests
  `len(key) == 0`, which holds for both nil and empty) are `Bytes := List Nat`.
* Go byte slices whose nil-ness matters (values passed to `Set`, iterator
  range bounds) are `Option Bytes`: `none` is Go `nil`, `some []` is a
  zero-length but non-nil slice.
* The MongoDB collection is a list of documents `{key, value, keyString}`;
  `UpdateOne` with upsert, `DeleteOne`, `FindOne` and `Find` are modelled on
  that list.  The two write targets (`collection` / `syncCollection`) address
  the same record set, so the `sync` flag is threaded but selects the same
  store; connection handles are omitted.
* Fallible Go methods return `Except DBError _` (or a `_ × Option DBError`
  pair when the mutated receiver must be observable alongside the error,
  as for `MongoDBBatch`).
* A Go `panic` / `log.Panic` is modelled by an `Option` result being `none`:
  a panicking call yields no return value and no recoverable error.
* Backing-store failures that the pure model cannot produce (transport
  errors of `FindOne` / `BulkWrite`) are passed in as explicit parameters
  (`FindResult`, `bulkErr`), mirroring the error-handling branches of the code.
-/

set_option autoImplicit false

/-- Raw byte sequences (Go `[]byte` where only the contents and length matter). -/
abbrev Bytes := List Nat

/-- Go `bytes.Compare`: lexicographic byte-wise comparison, a strict prefix
compares less. -/
def bytesCompare : Bytes → Bytes → Ordering
  | [], [] => .eq
  | [], _ :: _ => .lt
  | _ :: _, [] => .gt
  | x :: xs, y :: ys =>
    if x < y then .lt else if y < x then .gt else bytesCompare xs ys

/-- MongoDB's comparison of BinData fields: first by length, then byte-wise
(the subtype is identical for all keys written by this backend). -/
def mongoBinCompare (a b : Bytes) : Ordering :=
  (compare a.length b.length).then (bytesCompare a b)

/-- Error taxonomy of the backend: the sentinels `errKeyEmpty` and
`errValueNil`, the `fmt.Errorf("batch has already been closed")` error,
a cursor-decode failure, and opaque backing-store (driver) errors. -/
inductive DBError where
  | errKeyEmpty
  | errValueNil
  | batchClosed
  | decodeFailed
  | backend (code : Nat)
deriving DecidableEq, Repr

/-- One persisted document: `{key: ..., value: ..., keyString: string(key)}`
as written by `MongoDB.set` and `MongoDBBatch.Set`. -/
structure Doc where
  key : Bytes
  value : Bytes
  keyString : Bytes
deriving DecidableEq, Repr

/-- The record set held by the collection (both durability tiers address it). -/
abbrev Store := List Doc

/-- First document matching the filter `{key: k}` (MongoDB `FindOne`). -/
def findDoc (s : Store) (k : Bytes) : Option Doc :=
  s.find? (fun d => decide (d.key = k))

/-- MongoDB `UpdateOne` with `SetUpsert(true)`, filter `{key: k}` and update
`{$set: {value: v, keyString: string(k)}}`: rewrite the value and derived
key field of the first matching document, or insert a fresh document. -/
def updateOneUpsert (s : Store) (k v : Bytes) : Store :=
  match s with
  | [] => [⟨k, v, k⟩]
  | d :: rest =>
    if d.key = k then { d with value := v, keyString := k } :: rest
    else d :: updateOneUpsert rest k v

/-- MongoDB `DeleteOne` with filter `{key: k}`: remove the first matching
document, if any. -/
def deleteOneByKey (s : Store) (k : Bytes) : Store :=
  match s with
  | [] => []
  | d :: rest => if d.key = k then rest else d :: deleteOneByKey rest k

/-- Outcome of the driver's `FindOne(...).Decode(&result)` call as seen by
`MongoDB.Get`: a decoded document, `mongo.ErrNoDocuments`, or another
driver failure. -/
inductive FindResult where
  | found (d : Doc)
  | noDocuments
  | failure (code : Nat)
deriving DecidableEq, Repr

/-- The `FindOne` call issued by `MongoDB.Get` against the pure store model:
it either finds a document for the key or reports `ErrNoDocuments`. -/
def findOne (s : Store) (k : Bytes) : FindResult :=
  match findDoc s k with
  | some d => .found d
  | none => .noDocuments

/-- Error-handling core of `MongoDB.Get`, parameterised by the driver
outcome: an empty key fails with `errKeyEmpty` before any query;
`ErrNoDocuments` becomes `(nil, nil)`; any other driver error is returned;
on success the decoded map's `"value"` field is returned. -/
def MongoDB.GetCore (r : FindResult) (key : Bytes) : Except DBError (Option Bytes) :=
  if key.length = 0 then .error .errKeyEmpty
  else
    match r with
    | .failure c => .error (.backend c)
    | .noDocuments => .ok none
    | .found d => .ok (some d.value)

/-- `MongoDB.Get` on the pure store model. -/
def MongoDB.Get (s : Store) (key : Bytes) : Except DBError (Option Bytes) :=
  MongoDB.GetCore (findOne s key) key

/-- `MongoDB.Has`: delegates to `Get` and reports whether the returned
slice is non-nil. -/
def MongoDB.Has (s : Store) (key : Bytes) : Except DBError Bool :=
  match MongoDB.Get s key with
  | .error e => .error e
  | .ok bytes => .ok bytes.isSome

/-- `MongoDB.set`: rejects an empty key with `errKeyEmpty`, a nil value with
`errValueNil`, then upserts `{value, keyString}` keyed by exact key match
against the tier selected by `sync` (both tiers address the same store). -/
def MongoDB.set (s : Store) (key : Bytes) (value : Option Bytes) (sync : Bool) :
    Except DBError Store :=
  if key.length = 0 then .error .errKeyEmpty
  else
    match value with
    | none => .error .errValueNil
    | some v =>
      let _ := sync
      .ok (updateOneUpsert s key v)

/-- `MongoDB.Set key value`, i.e. `set key value false`. -/
def MongoDB.Set (s : Store) (key : Bytes) (value : Option Bytes) :
    Except DBError Store :=
  MongoDB.set s key value false

/-- `MongoDB.SetSync key value`, i.e. `set key value true`. -/
def MongoDB.SetSync (s : Store) (key : Bytes) (value : Option Bytes) :
    Except DBError Store :=
  MongoDB.set s key value true

/-- `MongoDB.delete`: rejects an empty key with `errKeyEmpty`, then issues
`DeleteOne` against the tier selected by `sync`. -/
def MongoDB.delete (s : Store) (key : Bytes) (sync : Bool) :
    Except DBError Store :=
  if key.length = 0 then .error .errKeyEmpty
  else
    let _ := sync
    .ok (deleteOneByKey s key)

/-- `MongoDB.Delete key`, i.e. `delete key false`. -/
def MongoDB.Delete (s : Store) (key : Bytes) : Except DBError Store :=
  MongoDB.delete s key false

/-- `MongoDB.DeleteSync key`, i.e. `delete key true`. -/
def MongoDB.DeleteSync (s : Store) (key : Bytes) : Except DBError Store :=
  MongoDB.delete s key true

/-- One buffered `mongo.WriteModel` of a batch: an upsert (with the derived
`keyString` field) or a `DeleteOne`. -/
inductive WriteModel where
  | updateUpsert (key value keyString : Bytes)
  | deleteOne (key : Bytes)
deriving DecidableEq, Repr

/-- `MongoDBBatch`: the ordered operation buffer and the closed flag
(collection handles omitted; both tiers address the same store). -/
structure MongoDBBatch where
  ops : List WriteModel
  closed : Bool
deriving DecidableEq, Repr

/-- `newMongoDBBatch`: fresh batch, empty operation list, open. -/
def newMongoDBBatch : MongoDBBatch := ⟨[], false⟩

/-- `MongoDBBatch.Set`: empty key fails with `errKeyEmpty`, nil value with
`errValueNil`, a closed batch with the batch-closed error (in that order);
otherwise an upsert write model is appended to the ordered buffer. -/
def MongoDBBatch.Set (b : MongoDBBatch) (key : Bytes) (value : Option Bytes) :
    MongoDBBatch × Option DBError :=
  if key.length = 0 then (b, some .errKeyEmpty)
  else
    match value with
    | none => (b, some .errValueNil)
    | some v =>
      if b.closed then (b, some .batchClosed)
      else ({ b with ops := b.ops ++ [.updateUpsert key v key] }, none)

/-- `MongoDBBatch.Delete`: empty key fails with `errKeyEmpty`, a closed
batch with the batch-closed error (in that order); otherwise a `DeleteOne`
write model is appended. -/
def MongoDBBatch.Delete (b : MongoDBBatch) (key : Bytes) :
    MongoDBBatch × Option DBError :=
  if key.length = 0 then (b, some .errKeyEmpty)
  else if b.closed then (b, some .batchClosed)
  else ({ b with ops := b.ops ++ [.deleteOne key] }, none)

/-- `MongoDBBatch.Close`: discards the buffer (`ops = nil`), marks the batch
closed, and always returns no error. -/
def MongoDBBatch.Close (b : MongoDBBatch) : MongoDBBatch × Option DBError :=
  ({ b with ops := [], closed := true }, none)

/-- `MongoDBBatch.write`: fails on an already-closed batch; otherwise, when
the buffer is non-empty, performs the ordered `BulkWrite` against the tier
selected by `sync` — `bulkErr` is that call's outcome — and on failure
returns the error immediately (the receiver is left unchanged); on success
(or an empty buffer) sets `closed` and delegates to `Close`. -/
def MongoDBBatch.write (b : MongoDBBatch) (sync : Bool) (bulkErr : Option DBError) :
    MongoDBBatch × Option DBError :=
  if b.closed then (b, some .batchClosed)
  else
    let _ := sync
    match b.ops, bulkErr with
    | _ :: _, some e => (b, some e)
    | _, _ => MongoDBBatch.Close { b with closed := true }

/-- `MongoDBBatch.Write`, i.e. `write false`. -/
def MongoDBBatch.Write (b : MongoDBBatch) (bulkErr : Option DBError) :
    MongoDBBatch × Option DBError :=
  b.write false bulkErr

/-- `MongoDBBatch.WriteSync`, i.e. `write true`. -/
def MongoDBBatch.WriteSync (b : MongoDBBatch) (bulkErr : Option DBError) :
    MongoDBBatch × Option DBError :=
  b.write true bulkErr

/-- Applying one buffered write model to the store (`BulkWrite` is ordered). -/
def applyWriteModel (s : Store) (w : WriteModel) : Store :=
  match w with
  | .updateUpsert k v _ => updateOneUpsert s k v
  | .deleteOne k => deleteOneByKey s k

/-- Ordered application of a batch buffer (`BulkWrite` with `SetOrdered(true)`). -/
def bulkWrite (s : Store) (ops : List WriteModel) : Store :=
  ops.foldl applyWriteModel s

/-- The BSON query filter `createIterator` builds from the `(start, end)`
bounds: unrestricted, `{key: {$lt: end}}`, `{key: {$gte: start}}`, or
`{key: {$gte: start, $lt: end}}`. -/
inductive MongoFilter where
  | all
  | ltEnd (e : Bytes)
  | gteStart (s : Bytes)
  | range (s e : Bytes)
deriving DecidableEq, Repr

/-- The find options `createIterator` passes to the driver: the filter and
the `SetSort(bson.M{"key": sortDirection})` direction. -/
structure FindQuery where
  filter : MongoFilter
  sortDirection : Int
deriving DecidableEq, Repr

/-- Whether a key satisfies a query filter, under MongoDB's BinData order. -/
def matchesFilter (f : MongoFilter) (k : Bytes) : Bool :=
  match f with
  | .all => true
  | .ltEnd e => decide (mongoBinCompare k e = .lt)
  | .gteStart s => decide (mongoBinCompare k s ≠ .lt)
  | .range s e =>
    decide (mongoBinCompare k s ≠ .lt) && decide (mongoBinCompare k e = .lt)

/-- The documents a `Find` with the given filter and sort direction yields,
in cursor order. -/
def mongoFind (s : Store) (f : MongoFilter) (sortDirection : Int) : List Doc :=
  let matched := s.filter (fun d => matchesFilter f d.key)
  if sortDirection = -1 then
    matched.insertionSort (fun d1 d2 => mongoBinCompare d1.key d2.key ≠ .lt)
  else
    matched.insertionSort (fun d1 d2 => mongoBinCompare d1.key d2.key ≠ .gt)

/-- A driver cursor: the result documents and the index of the current
position (`pos ≥ docs.length` means the cursor is exhausted: `Decode`
fails there).  `createIterator` has already advanced once, so `pos = 0`
denotes the first result. -/
structure Cursor where
  docs : List Doc
  pos : Nat
deriving DecidableEq, Repr

/-- `cursor.Decode(&itr.current)`: the document at the current position,
or `none` when decoding fails (no current document). -/
def cursorDecode (c : Cursor) : Option Doc :=
  c.docs.get? c.pos

/-- `cursor.Next(ctx)`: advance; the returned flag tells whether a document
is available at the new position. -/
def cursorNext (c : Cursor) : Cursor × Bool :=
  ({ c with pos := c.pos + 1 }, decide (c.pos + 1 < c.docs.length))

/-- `MongoDBIterator`: the cursor plus the immutable `(start, end)` domain
(`none` is a nil, i.e. absent, bound), the direction flag, the sticky
invalidity flag, the last recorded error, and the decoded current document. -/
structure MongoDBIterator where
  cursor : Cursor
  start : Option Bytes
  end_ : Option Bytes
  isReverse : Bool
  isInvalid : Bool
  lastErr : Option DBError
  current : Option Doc
deriving DecidableEq, Repr

/-- `newMongoDBIterator`: wraps a primed cursor; not yet invalid, no error,
nothing decoded. -/
def newMongoDBIterator (cursor : Cursor) (start end_ : Option Bytes)
    (isReverse : Bool) : MongoDBIterator :=
  ⟨cursor, start, end_, isReverse, false, none, none⟩

/-- Go `current["key"]` / `current["value"]`: indexing a nil map yields nil. -/
def currentField (c : Option Doc) (f : Doc → Bytes) : Bytes :=
  match c with
  | some d => f d
  | none => []

/-- `MongoDBIterator.Error`: the last recorded error. -/
def MongoDBIterator.Error (itr : MongoDBIterator) : Option DBError :=
  itr.lastErr

/-- `MongoDBIterator.Domain`: the `(start, end)` pair fixed at construction. -/
def MongoDBIterator.Domain (itr : MongoDBIterator) : Option Bytes × Option Bytes :=
  (itr.start, itr.end_)

/-- `MongoDBIterator.Valid`: mutates the receiver, so it returns the updated
iterator with the boolean.  False (with `isInvalid` set) as soon as the flag
is already set, a prior error was recorded, the current position fails to
decode (recording the error), or the freshly decoded key violates the
direction-appropriate bound: reverse with `start` non-nil and
`bytes.Compare(key, start) < 0`, forward with `end` non-nil and
`bytes.Compare(end, key) <= 0`. -/
def MongoDBIterator.Valid (itr : MongoDBIterator) : MongoDBIterator × Bool :=
  if itr.isInvalid then (itr, false)
  else if itr.lastErr.isSome then ({ itr with isInvalid := true }, false)
  else
    match cursorDecode itr.cursor with
    | none => ({ itr with lastErr := some .decodeFailed, isInvalid := true }, false)
    | some d =>
      let itr1 := { itr with current := some d }
      if itr1.isReverse then
        match itr1.start with
        | some st =>
          if bytesCompare d.key st = .lt then ({ itr1 with isInvalid := true }, false)
          else (itr1, true)
        | none => (itr1, true)
      else
        match itr1.end_ with
        | some en =>
          if bytesCompare en d.key ≠ .gt then ({ itr1 with isInvalid := true }, false)
          else (itr1, true)
        | none => (itr1, true)

/-- `MongoDBIterator.Key`: asserts validity (panic — `none` — when `Valid`
is false), then returns the current document's key field. -/
def MongoDBIterator.Key (itr : MongoDBIterator) : Option (MongoDBIterator × Bytes) :=
  let r := itr.Valid
  if r.2 then some (r.1, currentField r.1.current Doc.key) else none

/-- `MongoDBIterator.Value`: asserts validity (panic — `none` — when `Valid`
is false), then returns the current document's value field. -/
def MongoDBIterator.Value (itr : MongoDBIterator) : Option (MongoDBIterator × Bytes) :=
  let r := itr.Valid
  if r.2 then some (r.1, currentField r.1.current Doc.value) else none

/-- `MongoDBIterator.Next`: asserts validity (panic — `none` — when `Valid`
is false); advances the cursor, marking the iterator invalid on exhaustion;
a decode failure after a successful advance is `log.Panic` (`none`). -/
def MongoDBIterator.Next (itr : MongoDBIterator) : Option MongoDBIterator :=
  let r := itr.Valid
  if r.2 then
    let n := cursorNext r.1.cursor
    if n.2 then
      match cursorDecode n.1 with
      | some d => some { r.1 with cursor := n.1, current := some d }
      | none => none
    else some { r.1 with cursor := n.1, isInvalid := true }
  else none

/-- `MongoDB.createIterator`: rejects an explicitly-empty (non-nil, zero
length) bound with `errKeyEmpty`; otherwise builds the query filter from
the bound pair, opens a sorted cursor, primes it with one `Next`, and wraps
it.  The issued `FindQuery` is returned alongside the iterator so the
construction is observable. -/
def MongoDB.createIterator (db : Store) (start end_ : Option Bytes)
    (sortDirection : Int) : Except DBError (FindQuery × MongoDBIterator) :=
  if start = some ([] : Bytes) ∨ end_ = some ([] : Bytes) then .error .errKeyEmpty
  else
    let filter :=
      match start, end_ with
      | none, none => MongoFilter.all
      | none, some e => MongoFilter.ltEnd e
      | some s, none => MongoFilter.gteStart s
      | some s, some e => MongoFilter.range s e
    let docs := mongoFind db filter sortDirection
    let cursor : Cursor := ⟨docs, 0⟩
    let isReverse := sortDirection = -1
    .ok (⟨filter, sortDirection⟩, newMongoDBIterator cursor start end_ isReverse)

/-- `MongoDB.Iterator`: forward iteration, ascending sort (`1`). -/
def MongoDB.Iterator (db : Store) (start end_ : Option Bytes) :
    Except DBError (FindQuery × MongoDBIterator) :=
  MongoDB.createIterator db start end_ 1

/-- `MongoDB.ReverseIterator`: reverse iteration, descending sort (`-1`). -/
def MongoDB.ReverseIterator (db : Store) (start end_ : Option Bytes) :
    Except DBError (FindQuery × MongoDBIterator) :=
  MongoDB.createIterator db start end_ (-1)

/-! ### Supporting lemmas -/

/-- After an upsert for key `k`, an exact-key `FindOne` for `k` hits the
upserted document, whose value is the written one. -/
theorem findDoc_updateOneUpsert (s : Store) (k v : Bytes) :
    findDoc (updateOneUpsert s k v) k = some ⟨k, v, k⟩ := by
  induction s with
  | nil => simp [updateOneUpsert, findDoc]
  | cons d rest ih =>
    by_cases h : d.key = k
    · simp [updateOneUpsert, findDoc, List.find?, h]
    · simp only [updateOneUpsert, if_neg h]
      simp only [findDoc, List.find?, decide_eq_true_eq, if_neg h] at ih ⊢
      simpa [h] using ih

/-! ### Claim theorems -/

/-- C1: for every non-empty key `k` and non-nil value `v`, `Set(k, v)`
(either durability tier) succeeds and a subsequent `Get(k)` on the updated
store returns `v`. -/
theorem set_then_get_roundtrip (s : Store) (k v : Bytes) (sync : Bool)
    (hk : k ≠ []) :
    ∃ s', MongoDB.set s k (some v) sync = .ok s' ∧
      MongoDB.Get s' k = .ok (some v) := by
  refine ⟨updateOneUpsert s k v, ?_, ?_⟩
  · simp [MongoDB.set, List.length_eq_zero, hk]
  · simp [MongoDB.Get, MongoDB.GetCore, findOne, findDoc_updateOneUpsert,
      List.length_eq_zero, hk]

/-- Witness for C1 at the empty store, key `[1]`, value `[2]`. -/
theorem set_then_get_roundtrip_witness :
    ∃ s', MongoDB.set [] [1] (some [2]) false = .ok s' ∧
      MongoDB.Get s' [1] = .ok (some [2]) :=
  set_then_get_roundtrip [] [1] [2] false (by decide)

/-- C2: every keyed operation (`Get`, `Has`, `Set`, `SetSync`, `Delete`,
`DeleteSync`, `Batch.Set`, `Batch.Delete`) rejects an empty key with
`errKeyEmpty`; `Iterator`/`ReverseIterator` reject an explicitly-empty
range bound with `errKeyEmpty`, while absent (`none`) bounds are accepted
as unbounded. -/
theorem empty_key_invalid_everywhere (s : Store) (o : Option Bytes)
    (b : MongoDBBatch) (st en : Option Bytes) :
    MongoDB.Get s [] = .error .errKeyEmpty ∧
    MongoDB.Has s [] = .error .errKeyEmpty ∧
    MongoDB.Set s [] o = .error .errKeyEmpty ∧
    MongoDB.SetSync s [] o = .error .errKeyEmpty ∧
    MongoDB.Delete s [] = .error .errKeyEmpty ∧
    MongoDB.DeleteSync s [] = .error .errKeyEmpty ∧
    (b.Set [] o).2 = some .errKeyEmpty ∧
    (b.Delete []).2 = some .errKeyEmpty ∧
    MongoDB.Iterator s (some []) en = .error .errKeyEmpty ∧
    MongoDB.Iterator s st (some []) = .error .errKeyEmpty ∧
    MongoDB.ReverseIterator s (some []) en = .error .errKeyEmpty ∧
    MongoDB.ReverseIterator s st (some []) = .error .errKeyEmpty ∧
    (∃ r, MongoDB.Iterator s none none = .ok r) ∧
    (∃ r, MongoDB.ReverseIterator s none none = .ok r) := by
  refine ⟨?_, ?_, ?_, ?_, ?_, ?_, ?_, ?_, ?_, ?_, ?_, ?_, ⟨_, rfl⟩, ⟨_, rfl⟩⟩ <;>
    simp [MongoDB.Get, MongoDB.GetCore, MongoDB.Has, MongoDB.Set,
      MongoDB.SetSync, MongoDB.set, MongoDB.Delete, MongoDB.DeleteSync,
      MongoDB.delete, MongoDBBatch.Set, MongoDBBatch.Delete,
      MongoDB.Iterator, MongoDB.ReverseIterator, MongoDB.createIterator,
      findOne]

/-- C3: for a non-empty key, a lookup that matches no record returns
`(nil, nil)` — the driver's `ErrNoDocuments` is converted to a no-error
miss — while any other driver failure is returned as an error. -/
theorem get_miss_is_not_an_error (s : Store) (k : Bytes) (c : Nat)
    (hk : k ≠ []) :
    (findDoc s k = none → MongoDB.Get s k = .ok none) ∧
    MongoDB.GetCore .noDocuments k = .ok none ∧
    MongoDB.GetCore (.failure c) k = .error (.backend c) := by
  refine ⟨fun hmiss => ?_, ?_, ?_⟩ <;>
    simp_all [MongoDB.Get, MongoDB.GetCore, findOne, List.length_eq_zero, hk]

/-- Witness for C3 at the empty store, key `[1]`, failure code `5`. -/
theorem get_miss_is_not_an_error_witness :
    (findDoc [] [1] = none → MongoDB.Get [] [1] = .ok none) ∧
    MongoDB.GetCore .noDocuments [1] = .ok none ∧
    MongoDB.GetCore (.failure 5) [1] = .error (.backend 5) :=
  get_miss_is_not_an_error [] [1] 5 (by decide)

/-- C4: for a non-empty key, `set` (hence `Set` and `SetSync`) fails with
`errValueNil` exactly when the value is the nil sentinel; a zero-length
but non-nil value is accepted and the upsert is performed. -/
theorem set_rejects_nil_value_only (s : Store) (k : Bytes) (sync : Bool)
    (hk : k ≠ []) :
    (∀ o, MongoDB.set s k o sync = .error .errValueNil ↔ o = none) ∧
    MongoDB.set s k (some []) sync = .ok (updateOneUpsert s k []) ∧
    MongoDB.Set s k none = .error .errValueNil ∧
    MongoDB.SetSync s k none = .error .errValueNil := by
  refine ⟨fun o => ?_, ?_, ?_, ?_⟩
  · cases o <;> simp [MongoDB.set, List.length_eq_zero, hk]
  · simp [MongoDB.set, List.length_eq_zero, hk]
  · simp [MongoDB.Set, MongoDB.set, List.length_eq_zero, hk]
  · simp [MongoDB.SetSync, MongoDB.set, List.length_eq_zero, hk]

/-- Witness for C4 at the empty store, key `[1]`. -/
theorem set_rejects_nil_value_only_witness :
    (∀ o, MongoDB.set [] [1] o false = .error .errValueNil ↔ o = none) ∧
    MongoDB.set [] [1] (some []) false = .ok (updateOneUpsert [] [1] []) ∧
    MongoDB.Set [] [1] none = .error .errValueNil ∧
    MongoDB.SetSync [] [1] none = .error .errValueNil :=
  set_rejects_nil_value_only [] [1] false (by decide)

/-- C5: the batch is a two-state machine.  `Close` always succeeds,
discards the buffered operations and marks the batch closed; a `write`
(hence `Write`/`WriteSync`) that completes without error leaves the batch
closed; and on a closed batch every mutating call with valid arguments —
`Set`, `Delete`, `Write`, `WriteSync` — fails with the batch-closed error
(argument validation precedes the closed check, see the companion claim). -/
theorem batch_two_state_machine (b : MongoDBBatch) (sync : Bool)
    (e : Option DBError) (k v : Bytes) (hk : k ≠ []) :
    ((b.Close).2 = none ∧ (b.Close).1.ops = [] ∧ (b.Close).1.closed = true) ∧
    ((b.write sync e).2 = none → (b.write sync e).1.closed = true) ∧
    (b.closed = true →
      (b.Set k (some v)).2 = some .batchClosed ∧
      (b.Delete k).2 = some .batchClosed ∧
      (b.Write e).2 = some .batchClosed ∧
      (b.WriteSync e).2 = some .batchClosed) := by
  refine ⟨⟨rfl, rfl, rfl⟩, ?_, fun hc => ⟨?_, ?_, ?_, ?_⟩⟩
  · by_cases hc : b.closed
    · simp [MongoDBBatch.write, hc]
    · rcases hops : b.ops with _ | ⟨w, rest⟩ <;> rcases e with _ | e' <;>
        simp [MongoDBBatch.write, MongoDBBatch.Close, hc, hops]
  · simp [MongoDBBatch.Set, List.length_eq_zero, hk, hc]
  · simp [MongoDBBatch.Delete, List.length_eq_zero, hk, hc]
  · simp [MongoDBBatch.Write, MongoDBBatch.write, hc]
  · simp [MongoDBBatch.WriteSync, MongoDBBatch.write, hc]

/-- Witness for C5 at a concrete closed batch, key `[1]`, value `[2]`. -/
theorem batch_two_state_machine_witness :
    (((⟨[], true⟩ : MongoDBBatch).Close).2 = none ∧
      ((⟨[], true⟩ : MongoDBBatch).Close).1.ops = [] ∧
      ((⟨[], true⟩ : MongoDBBatch).Close).1.closed = true) ∧
    (((⟨[], true⟩ : MongoDBBatch).write false none).2 = none →
      ((⟨[], true⟩ : MongoDBBatch).write false none).1.closed = true) ∧
    ((⟨[], true⟩ : MongoDBBatch).closed = true →
      ((⟨[], true⟩ : MongoDBBatch).Set [1] (some [2])).2 = some .batchClosed ∧
      ((⟨[], true⟩ : MongoDBBatch).Delete [1]).2 = some .batchClosed ∧
      ((⟨[], true⟩ : MongoDBBatch).Write none).2 = some .batchClosed ∧
      ((⟨[], true⟩ : MongoDBBatch).WriteSync none).2 = some .batchClosed) :=
  batch_two_state_machine ⟨[], true⟩ false none [1] [2] (by decide)

/-- C6 counterexample: a batch holding one buffered operation whose bulk
flush fails returns the backing-store error but does **not** transition to
Closed — its `closed` flag stays false and a subsequent `Delete` succeeds
instead of failing with the batch-closed error. -/
theorem batch_write_failure_leaves_open_cex :
    ((⟨[.deleteOne [1]], false⟩ : MongoDBBatch).write false
        (some (.backend 7))).2 = some (.backend 7) ∧
    ((⟨[.deleteOne [1]], false⟩ : MongoDBBatch).write false
        (some (.backend 7))).1.closed = false ∧
    (((⟨[.deleteOne [1]], false⟩ : MongoDBBatch).write false
        (some (.backend 7))).1.Delete [2]).2 = none := by decide

/-- C6 amended: when the bulk flush of a non-empty open batch fails, the
backing-store error is returned to the caller and the batch is left
entirely unchanged — still Open, buffer intact — so subsequent mutating
calls do not fail with the batch-closed error. -/
theorem batch_write_failure_stays_open (b : MongoDBBatch) (sync : Bool)
    (e : DBError) (hopen : b.closed = false) (hops : b.ops ≠ []) :
    (b.write sync (some e)).2 = some e ∧ (b.write sync (some e)).1 = b := by
  rcases hb : b.ops with _ | ⟨w, rest⟩
  · exact absurd hb hops
  · simp [MongoDBBatch.write, hopen, hb]

/-- Witness for the amended C6 at a concrete one-operation open batch. -/
theorem batch_write_failure_stays_open_witness :
    ((⟨[.deleteOne [1]], false⟩ : MongoDBBatch).write true
        (some (.backend 3))).2 = some (.backend 3) ∧
    ((⟨[.deleteOne [1]], false⟩ : MongoDBBatch).write true
        (some (.backend 3))).1 = ⟨[.deleteOne [1]], false⟩ :=
  batch_write_failure_stays_open ⟨[.deleteOne [1]], false⟩ true (DBError.backend 3)
    (by decide) (by decide)

/-- C10: on an already-closed batch, argument validation precedes the
closed-state check: `Set` with an empty key fails with `errKeyEmpty`,
`Set` with a nil value with `errValueNil`, `Delete` with an empty key with
`errKeyEmpty`; only valid arguments reach the batch-closed error. -/
theorem closed_batch_validates_args_first (b : MongoDBBatch) (k v : Bytes)
    (o : Option Bytes) (hclosed : b.closed = true) (hk : k ≠ []) :
    (b.Set [] o).2 = some .errKeyEmpty ∧
    (b.Set k none).2 = some .errValueNil ∧
    (b.Delete []).2 = some .errKeyEmpty ∧
    (b.Set k (some v)).2 = some .batchClosed ∧
    (b.Delete k).2 = some .batchClosed := by
  refine ⟨?_, ?_, ?_, ?_, ?_⟩ <;>
    simp [MongoDBBatch.Set, MongoDBBatch.Delete, List.length_eq_zero, hk,
      hclosed]

/-- Witness for C10 at a concrete closed batch, key `[1]`, value `[2]`. -/
theorem closed_batch_validates_args_first_witness :
    (((⟨[], true⟩ : MongoDBBatch).Set [] (some [2])).2 = some .errKeyEmpty) ∧
    (((⟨[], true⟩ : MongoDBBatch).Set [1] none).2 = some .errValueNil) ∧
    (((⟨[], true⟩ : MongoDBBatch).Delete []).2 = some .errKeyEmpty) ∧
    (((⟨[], true⟩ : MongoDBBatch).Set [1] (some [2])).2 = some .batchClosed) ∧
    (((⟨[], true⟩ : MongoDBBatch).Delete [1]).2 = some .batchClosed) :=
  closed_batch_validates_args_first ⟨[], true⟩ [1] [2] (some [2]) rfl
    (by decide)

/-- C7: iterator construction maps the bound pair to the query filter
exactly — both absent → unrestricted, only end absent → key ≥ start, only
start absent → key < end, both present → start ≤ key < end — and requests
ascending sort (`1`) for `Iterator`, descending sort (`-1`) for
`ReverseIterator`. -/
theorem iterator_filter_construction (db : Store) (s e : Bytes) (d : Int)
    (hs : s ≠ []) (he : e ≠ []) :
    (∃ it, MongoDB.createIterator db none none d = .ok (⟨.all, d⟩, it)) ∧
    (∃ it, MongoDB.createIterator db (some s) none d =
      .ok (⟨.gteStart s, d⟩, it)) ∧
    (∃ it, MongoDB.createIterator db none (some e) d =
      .ok (⟨.ltEnd e, d⟩, it)) ∧
    (∃ it, MongoDB.createIterator db (some s) (some e) d =
      .ok (⟨.range s e, d⟩, it)) ∧
    MongoDB.Iterator db (some s) (some e) =
      MongoDB.createIterator db (some s) (some e) 1 ∧
    MongoDB.ReverseIterator db (some s) (some e) =
      MongoDB.createIterator db (some s) (some e) (-1) ∧
    (∃ it, MongoDB.Iterator db none none = .ok (⟨.all, 1⟩, it)) ∧
    (∃ it, MongoDB.ReverseIterator db none none = .ok (⟨.all, -1⟩, it)) := by
  refine ⟨?_, ?_, ?_, ?_, rfl, rfl, ⟨_, rfl⟩, ⟨_, rfl⟩⟩ <;>
    simp [MongoDB.createIterator, hs, he]

/-- Witness for C7 on the empty store with bounds `[1]`, `[2]`, direction 1. -/
theorem iterator_filter_construction_witness :
    (∃ it, MongoDB.createIterator [] none none 1 = .ok (⟨.all, 1⟩, it)) ∧
    (∃ it, MongoDB.createIterator [] (some [1]) none 1 =
      .ok (⟨.gteStart [1], 1⟩, it)) ∧
    (∃ it, MongoDB.createIterator [] none (some [2]) 1 =
      .ok (⟨.ltEnd [2], 1⟩, it)) ∧
    (∃ it, MongoDB.createIterator [] (some [1]) (some [2]) 1 =
      .ok (⟨.range [1] [2], 1⟩, it)) ∧
    MongoDB.Iterator [] (some [1]) (some [2]) =
      MongoDB.createIterator [] (some [1]) (some [2]) 1 ∧
    MongoDB.ReverseIterator [] (some [1]) (some [2]) =
      MongoDB.createIterator [] (some [1]) (some [2]) (-1) ∧
    (∃ it, MongoDB.Iterator [] none none = .ok (⟨.all, 1⟩, it)) ∧
    (∃ it, MongoDB.ReverseIterator [] none none = .ok (⟨.all, -1⟩, it)) :=
  iterator_filter_construction [] [1] [2] 1 (by decide) (by decide)

/-- C8: `Valid` is permanently false once false — a false result sets the
sticky `isInvalid` flag, an invalid iterator is returned unchanged with
`false`, and a repeated call stays false — and it returns false whenever a
prior error was recorded, the current cursor position fails to decode, or
the decoded key violates the direction-appropriate bound (reverse: `start`
present and key < start; forward: `end` present and end ≤ key). -/
theorem iterator_valid_false_is_permanent (itr : MongoDBIterator) :
    (itr.isInvalid = true → itr.Valid = (itr, false)) ∧
    ((itr.Valid).2 = false → (itr.Valid).1.isInvalid = true) ∧
    ((itr.Valid).2 = false → ((itr.Valid).1.Valid).2 = false) ∧
    (itr.lastErr.isSome = true → (itr.Valid).2 = false) ∧
    (cursorDecode itr.cursor = none → (itr.Valid).2 = false) ∧
    (∀ d st, cursorDecode itr.cursor = some d → itr.isReverse = true →
      itr.start = some st → bytesCompare d.key st = .lt →
      (itr.Valid).2 = false) ∧
    (∀ d en, cursorDecode itr.cursor = some d → itr.isReverse = false →
      itr.end_ = some en → bytesCompare en d.key ≠ .gt →
      (itr.Valid).2 = false) := by
  have hinv : ∀ j : MongoDBIterator, j.isInvalid = true →
      j.Valid = (j, false) := by
    intro j hj
    simp [MongoDBIterator.Valid, hj]
  have hfalse : (itr.Valid).2 = false → (itr.Valid).1.isInvalid = true := by
    by_cases hi : itr.isInvalid
    · intro _; simp [MongoDBIterator.Valid, hi]
    · by_cases hl : itr.lastErr.isSome
      · intro _; simp [MongoDBIterator.Valid, hi, hl]
      · rcases hdec : cursorDecode itr.cursor with _ | d
        · intro _; simp [MongoDBIterator.Valid, hi, hl, hdec]
        · by_cases hr : itr.isReverse
          · rcases hst : itr.start with _ | st
            · intro h
              simp [MongoDBIterator.Valid, hi, hl, hdec, hr, hst] at h
            · by_cases hcmp : bytesCompare d.key st = .lt
              · intro _
                simp [MongoDBIterator.Valid, hi, hl, hdec, hr, hst, hcmp]
              · intro h
                simp [MongoDBIterator.Valid, hi, hl, hdec, hr, hst, hcmp] at h
          · rcases hen : itr.end_ with _ | en
            · intro h
              simp [MongoDBIterator.Valid, hi, hl, hdec, hr, hen] at h
            · by_cases hcmp : bytesCompare en d.key = .gt
              · intro h
                simp [MongoDBIterator.Valid, hi, hl, hdec, hr, hen, hcmp] at h
              · intro _
                simp [MongoDBIterator.Valid, hi, hl, hdec, hr, hen, hcmp]
  refine ⟨hinv itr, hfalse, fun h => ?_, fun h => ?_, fun h => ?_,
    fun d st hdec hrev hst hcmp => ?_, fun d en hdec hrev hen hcmp => ?_⟩
  · rw [hinv _ (hfalse h)]
  · by_cases hi : itr.isInvalid <;> simp [MongoDBIterator.Valid, hi, h]
  · by_cases hi : itr.isInvalid
    · simp [MongoDBIterator.Valid, hi]
    · by_cases hl : itr.lastErr.isSome <;>
        simp [MongoDBIterator.Valid, hi, hl, h]
  · by_cases hi : itr.isInvalid
    · simp [MongoDBIterator.Valid, hi]
    · by_cases hl : itr.lastErr.isSome <;>
        simp [MongoDBIterator.Valid, hi, hl, hdec, hrev, hst, hcmp]
  · by_cases hi : itr.isInvalid
    · simp [MongoDBIterator.Valid, hi]
    · by_cases hl : itr.lastErr.isSome <;>
        simp [MongoDBIterator.Valid, hi, hl, hdec, hrev, hen, hcmp]

/-- Witness for C8: an iterator with the invalidity flag set stays `(itr,
false)` under `Valid`, applied at a concrete iterator. -/
theorem iterator_valid_false_is_permanent_witness :
    ((⟨⟨[], 0⟩, none, none, false, true, none, none⟩ : MongoDBIterator).Valid)
      = (⟨⟨[], 0⟩, none, none, false, true, none, none⟩, false) :=
  (iterator_valid_false_is_permanent _).1 rfl

/-- C9: on an iterator for which `Valid` returns false, `Key`, `Value` and
`Next` all panic (`none` in the panic-as-`Option` model): they return
neither a value nor a recoverable error, and perform no silent no-op. -/
theorem invalid_iterator_use_panics (itr : MongoDBIterator)
    (h : (itr.Valid).2 = false) :
    itr.Key = none ∧ itr.Value = none ∧ itr.Next = none := by
  refine ⟨?_, ?_, ?_⟩ <;>
    simp [MongoDBIterator.Key, MongoDBIterator.Value, MongoDBIterator.Next, h]

/-- Witness for C9 at a concrete iterator whose invalidity flag is set. -/
theorem invalid_iterator_use_panics_witness :
    (⟨⟨[], 0⟩, none, none, false, true, none, none⟩ : MongoDBIterator).Key
        = none ∧
    (⟨⟨[], 0⟩, none, none, false, true, none, none⟩ : MongoDBIterator).Value
        = none ∧
    (⟨⟨[], 0⟩, none, none, false, true, none, none⟩ : MongoDBIterator).Next
        = none :=
  invalid_iterator_use_panics _ (by decide)
